import Mathlib

/-!
# Verification of the request-coordination and caching subsystem

Shallow embedding of `src/cache.js` and `src/api.js` of the
twitter-account-location-in-username extension, together with theorems
settling the specification claims about single-flight de-duplication,
concurrency bounds, rate-limit backoff, cache semantics and the fetch
bridge protocol.

JavaScript `Map`s are modelled as association lists in insertion order:
`Map.set` on an existing key updates the value in place (it does NOT
refresh insertion order), `Map.set` on a fresh key appends, `Map.delete`
removes the entry, and iteration order is list order.  `string | null`
and `boolean | null` fields are modelled as `Option String` / `Option Bool`,
and a map whose values may be `null` has `Option`-valued entries.
-/

namespace TwitterLocation

/-- In-memory cache entry: `{location: string|null, locationAccurate: boolean|null}`
(cache.js line 6). -/
structure CacheEntry where
  location : Option String
  locationAccurate : Option Bool
  deriving Repr, DecidableEq

/-- Opaque rich-profile payload; the code never inspects its contents (and a
JavaScript object is always truthy, so `Option FullProfile` models the
`fullResult && ...` truthiness checks exactly, with `isSome` as truthiness). -/
structure FullProfile where
  payload : Nat
  deriving Repr, DecidableEq

/-- `locationCache : Map<string, CacheEntry | null>` (cache.js line 7). -/
abbrev LocCache := List (String × Option CacheEntry)

/-- `fullProfileCache : Map<string, Object>` (cache.js line 9). -/
abbrev FullCache := List (String × FullProfile)

/-- `CACHE_EXPIRY_DAYS = 30` (cache.js line 14). -/
def CACHE_EXPIRY_DAYS : Nat := 30

/-- `MAX_CACHE_SIZE = 500` (cache.js line 16). -/
def MAX_CACHE_SIZE : Nat := 500

/-- The TTL in milliseconds: `CACHE_EXPIRY_DAYS * 24 * 60 * 60 * 1000`
(cache.js line 97). -/
def CACHE_EXPIRY_MS : Nat := CACHE_EXPIRY_DAYS * 24 * 60 * 60 * 1000

/-- `Map.get` / first-match lookup (JS maps have unique keys). -/
def mapGet {α : Type} (m : List (String × α)) (k : String) : Option α :=
  match m with
  | [] => none
  | (k', v) :: rest => if k' = k then some v else mapGet rest k

/-- `Map.has`. -/
def mapHas {α : Type} (m : List (String × α)) (k : String) : Bool :=
  match m with
  | [] => false
  | (k', _) :: rest => if k' = k then true else mapHas rest k

/-- `Map.delete`. -/
def mapDelete {α : Type} (m : List (String × α)) (k : String) :
    List (String × α) :=
  match m with
  | [] => []
  | (k', v) :: rest =>
      if k' = k then mapDelete rest k else (k', v) :: mapDelete rest k

/-- `Map.set`: update in place when the key is present (insertion order is
kept), append when absent. -/
def mapSet {α : Type} (m : List (String × α)) (k : String) (v : α) :
    List (String × α) :=
  match m with
  | [] => [(k, v)]
  | (k', v') :: rest =>
      if k' = k then (k, v) :: rest else (k', v') :: mapSet rest k v

/-- `evictLRUEntry(map)` (cache.js lines 25-33): when `map.size >= MAX_CACHE_SIZE`,
delete the first key of iteration order; `if (firstKey)` skips a falsy first
key, i.e. the empty string (or an empty map). -/
def evictLRUEntry {α : Type} (m : List (String × α)) : List (String × α) :=
  if m.length ≥ MAX_CACHE_SIZE then
    match m.head? with
    | some (firstKey, _) =>
        if firstKey = "" then m else mapDelete m firstKey
    | none => m
  else m

/-- `saveCacheEntry(username, location)` (cache.js lines 134-144), the
in-memory part (the debounced persistence timer has no effect on the maps). -/
def saveCacheEntry (locC : LocCache) (username : String)
    (location : Option CacheEntry) : LocCache :=
  mapSet (evictLRUEntry locC) username location

/-- `saveFullProfile(username, profileObj)` (cache.js lines 152-166), the
in-memory part: a falsy (empty) username is a no-op; otherwise the profile is
set and, if the location map lacks the key, an explicit `null` placeholder is
inserted there. -/
def saveFullProfile (locC : LocCache) (fullC : FullCache)
    (username : String) (profileObj : FullProfile) : LocCache × FullCache :=
  if username = "" then (locC, fullC)
  else
    let fullC' := mapSet (evictLRUEntry fullC) username profileObj
    let locC' :=
      if mapHas locC username then locC
      else mapSet (evictLRUEntry locC) username none
    (locC', fullC')

/-- `hasCachedData(screenName)` (cache.js lines 173-175):
`fullProfileCache.has(k) || (locationCache.has(k) && locationCache.get(k) !== null)`. -/
def hasCachedData (locC : LocCache) (fullC : FullCache)
    (screenName : String) : Bool :=
  mapHas fullC screenName ||
    (mapHas locC screenName && mapGet locC screenName != some none)

/-! ## Persistent cache store (cache.js `saveCache` / `loadCache`) -/

/-- The `location` field of a persisted record: the legacy shape is a bare
string, current saves write an object or `null`. -/
inductive StoredLocation
  | nullV
  | strV (s : String)
  | objV (e : CacheEntry)
  deriving Repr, DecidableEq

/-- One persisted record (cache.js lines 109-117):
`{ location, expiry, cachedAt, fullProfile? }`. -/
structure StoredRecord where
  location : StoredLocation
  fullProfile : Option FullProfile
  cachedAt : Nat
  expiry : Nat
  deriving Repr, DecidableEq

/-- The serialized blob stored under `CACHE_KEY`: an object, i.e. a map with
unique keys, modelled as an association list in property order. -/
abbrev StorageBlob := List (String × StoredRecord)

/-- The record `saveCache` writes for key `username` holding in-memory value
`locationData` (cache.js lines 99-117): the location object is re-normalized
field by field, the full profile is attached iff present, and
`expiry = now + CACHE_EXPIRY_MS` is freshly computed from save-time `now`. -/
def savedRecord (now : Nat) (fullC : FullCache) (username : String)
    (locationData : Option CacheEntry) : StoredRecord :=
  let savedLocation : StoredLocation :=
    match locationData with
    | some e => .objV { location := e.location, locationAccurate := e.locationAccurate }
    | none => .nullV
  { location := savedLocation
    fullProfile := mapGet fullC username
    cachedAt := now
    expiry := now + CACHE_EXPIRY_MS }

/-- `saveCache()` (cache.js lines 88-126): serialize every `locationCache`
entry (in iteration order) into the blob. -/
def saveCache (now : Nat) (locC : LocCache) (fullC : FullCache) : StorageBlob :=
  locC.map (fun p => (p.1, savedRecord now fullC p.1 p.2))

/-- The location-cache value `loadCache` rehydrates from a stored location
(cache.js lines 61-69): a bare string is normalized to
`{location: str, locationAccurate: null}`, an object is copied field by field
with `?? null` defaults, and a stored `null` is kept as an explicit `null`. -/
def rehydratedLoc (stored : StoredLocation) : Option CacheEntry :=
  match stored with
  | .strV s => some { location := some s, locationAccurate := none }
  | .objV e => some { location := e.location, locationAccurate := e.locationAccurate }
  | .nullV => none

/-- `loadCache()` (cache.js lines 39-82): iterate the blob; a record with a
falsy or past `expiry` is skipped, a record with a `null` location and no full
profile is skipped, every other record sets the location cache (and the full
profile cache when a profile is present). The in-memory maps being populated
are threaded as accumulators. -/
def loadCache (now : Nat) :
    StorageBlob → LocCache → FullCache → LocCache × FullCache
  | [], locC, fullC => (locC, fullC)
  | (username, data) :: rest, locC, fullC =>
      if data.expiry = 0 ∨ data.expiry ≤ now then
        loadCache now rest locC fullC
      else if data.location = .nullV ∧ data.fullProfile = none then
        loadCache now rest locC fullC
      else
        let locC' := mapSet locC username (rehydratedLoc data.location)
        let fullC' :=
          match data.fullProfile with
          | some p => mapSet fullC username p
          | none => fullC
        loadCache now rest locC' fullC'

/-! ## Fetch bridge (api.js `makeLocationRequest`) -/

/-- `REQUEST_TIMEOUT`: the hardcoded `10000` ms window of api.js line 123. -/
def REQUEST_TIMEOUT : Nat := 10000

/-- One `message` event as observed by the bridge's handler, with the delay
(ms after the request was issued) at which it is delivered. -/
structure MsgEvent where
  sourceIsWindow : Bool
  msgType : String
  screenName : String
  requestId : Nat
  location : Option String
  locationAccurate : Option Bool
  fullResult : Option FullProfile
  isRateLimited : Bool
  time : Nat
  deriving Repr, DecidableEq

/-- The handler's match condition (api.js lines 80-84): same-window source,
type `__locationResponse`, and both `screenName` and `requestId` equal to the
pending request's. -/
def matchesHandler (sn : String) (rid : Nat) (e : MsgEvent) : Bool :=
  e.sourceIsWindow && e.msgType == "__locationResponse" &&
    e.screenName == sn && e.requestId == rid

/-- How the promise returned by `makeLocationRequest` settles. A `rejected`
constructor is included so that unreachability of rejection is a statement
about the program, not an artifact of the outcome type. -/
inductive BridgeOutcome
  | resolvedNull
  | resolvedValue (location : Option String) (locationAccurate : Option Bool)
      (fullResult : Option FullProfile)
  | rejected
  deriving Repr, DecidableEq

/-- `makeLocationRequest(screenName)` (api.js lines 75-125), settlement only:
given the chronological stream of message events, the first matching event
delivered before the 10000 ms timeout resolves the promise with
`{location, locationAccurate, fullResult}` (each defaulted with `?? null`);
otherwise the timeout callback removes the listener and resolves with `null`.
The executor takes only `resolve`, so no path rejects. -/
def makeLocationRequest (sn : String) (rid : Nat) (events : List MsgEvent) :
    BridgeOutcome :=
  match events.find? (fun e => matchesHandler sn rid e && e.time < REQUEST_TIMEOUT) with
  | some e => .resolvedValue e.location e.locationAccurate e.fullResult
  | none => .resolvedNull

/-- The cache writes performed by the bridge's response handler
(api.js lines 87-110): nothing is cached on a rate-limited response;
otherwise a non-null location is stored as
`{location, locationAccurate: !!locationAccurate}` (the double negation turns
a `null` accuracy into `false`), a null location is stored as an explicit
`null` placeholder, and a truthy `fullResult` is additionally stored through
`saveFullProfile`. -/
def applyBridgeResponse (sn : String) (location : Option String)
    (locationAccurate : Option Bool) (fullResult : Option FullProfile)
    (isRateLimited : Bool) (locC : LocCache) (fullC : FullCache) :
    LocCache × FullCache :=
  if isRateLimited then (locC, fullC)
  else
    let locC' :=
      match location with
      | some loc =>
          saveCacheEntry locC sn
            (some { location := some loc
                    locationAccurate := some (locationAccurate.getD false) })
      | none => saveCacheEntry locC sn none
    match fullResult with
    | some p => saveFullProfile locC' fullC sn p
    | none => (locC', fullC)

/-! ## Request coordinator (api.js queue, `getUserLocation`, scheduling loop) -/

/-- `MIN_REQUEST_INTERVAL = 2000` (api.js line 5). -/
def MIN_REQUEST_INTERVAL : Nat := 2000

/-- `MAX_CONCURRENT_REQUESTS = 2` (api.js line 6). -/
def MAX_CONCURRENT_REQUESTS : Nat := 2

/-- One `requestQueue` record `{screenName, resolve, reject}`
(api.js line 193), together with the `_extraResolves` / `_extraRejects`
arrays that `getUserLocation` bolts onto it for piggybacked callers
(api.js lines 180-183). Resolver and rejecter functions are modelled by the
numeric id of the promise they settle. -/
structure QueueReq where
  screenName : String
  resolveId : Nat
  extraResolves : List Nat
  extraRejects : List Nat
  deriving Repr, DecidableEq

/-- Attach a piggybacking waiter to the first queue record for `sn`
(api.js lines 175-184: `requestQueue.find` then push onto the record's
`_extraResolves` / `_extraRejects`). -/
def attachWaiter : List QueueReq → String → Nat → List QueueReq
  | [], _, _ => []
  | r :: rest, sn, w =>
      if r.screenName = sn then
        { r with
          extraResolves := r.extraResolves ++ [w]
          extraRejects := r.extraRejects ++ [w] } :: rest
      else r :: attachWaiter rest sn w

/-- How a `getUserLocation` call returns. -/
inductive GULOutcome
  | hit (v : CacheEntry)
  | joined
  | enqueued
  deriving Repr, DecidableEq

/-- State after a `getUserLocation` call, plus which path it took. -/
structure GULResult where
  locationCache : LocCache
  queue : List QueueReq
  outcome : GULOutcome
  deriving Repr, DecidableEq

/-- `getUserLocation(screenName, options)` (api.js lines 150-196), the
synchronous part: unless `force`, a present non-null cache entry is returned
immediately (`hit`, no queueing); a present null entry is deleted and the call
falls through; then a queued request for the same name absorbs the caller as
an extra waiter (`joined`), and otherwise a fresh record is pushed and the
scheduling loop is kicked (`enqueued` — the path that leads to a new bridge
dispatch). `waiter` is the id of the promise handed back to this caller. -/
def getUserLocation (locC : LocCache) (queue : List QueueReq)
    (sn : String) (force : Bool) (waiter : Nat) : GULResult :=
  let cacheStep : LocCache × Option CacheEntry :=
    if force then (locC, none)
    else
      match mapGet locC sn with
      | some (some cached) => (locC, some cached)
      | some none => (mapDelete locC sn, none)
      | none => (locC, none)
  match cacheStep.2 with
  | some cached =>
      { locationCache := cacheStep.1, queue := queue, outcome := .hit cached }
  | none =>
      if queue.any (fun r => r.screenName == sn) then
        { locationCache := cacheStep.1
          queue := attachWaiter queue sn waiter
          outcome := .joined }
      else
        { locationCache := cacheStep.1
          queue := queue ++ [{ screenName := sn, resolveId := waiter,
                               extraResolves := [], extraRejects := [] }]
          outcome := .enqueued }

/-- `window._extraResolves`: no statement anywhere in the source assigns an
`_extraResolves` (or `_extraRejects`) property on the global object — the
arrays are pushed onto the *queue record* (api.js lines 180-183). `api.js` is
a classic non-strict content script and `processRequestQueue` is always
invoked as a plain call or via `setTimeout`, so `this` inside it is the global
object; hence `this._extraResolves` in the settlement callback (api.js
line 53) reads this never-assigned global property. -/
def windowExtraResolves : Option (List Nat) := none

/-- The settlement fan-out of one dispatched request (api.js lines 49-57):
the dequeued record's primary `resolve` fires with the bridge result, then
`if (this._extraResolves) this._extraResolves.forEach(...)` fires whatever
`this._extraResolves` holds. Returns the ids of every promise resolved by the
settlement (all with the same bridge value). -/
def settleDispatch (req : QueueReq) : List Nat :=
  req.resolveId ::
    (match windowExtraResolves with
     | some l => l
     | none => [])

/-- State of the scheduling machinery (api.js lines 1-8), with an abstract
millisecond clock and a ghost `dispatched` history recording every
`makeLocationRequest` call in order. `rateLimitResetTime` is in unix seconds
(`0` = clear), as set by the `__rateLimitInfo` handler (api.js line 140) and
read by the gate (api.js lines 24-33). -/
structure SchedState where
  requestQueue : List String
  isProcessingQueue : Bool
  lastRequestTime : Nat
  activeRequests : Nat
  rateLimitResetTime : Nat
  nowMs : Nat
  dispatched : List String
  deriving Repr, DecidableEq

/-- `Math.floor(Date.now() / 1000)` (api.js line 25). -/
def SchedState.nowSec (s : SchedState) : Nat := s.nowMs / 1000

/-- What the prologue of `processRequestQueue` (api.js lines 22-35) decides
for one invocation, before any dispatching. -/
inductive GateDecision
  | busyOrEmpty
  | reschedule (delayMs : Nat)
  | enter (s' : SchedState)
  deriving Repr, DecidableEq

/-- The prologue of `processRequestQueue` (api.js lines 22-35): an invocation
while already processing or with an empty queue returns at once; else if
`rateLimitResetTime` is set and still in the future, it only schedules a
re-check via `setTimeout(processRequestQueue, Math.min(waitTime, 60000))`
where `waitTime = (rateLimitResetTime - now) * 1000`; else a stale reset time
is cleared, `isProcessingQueue` is set, and the dispatch loop is entered. -/
def processRequestQueueGate (s : SchedState) : GateDecision :=
  if s.isProcessingQueue || s.requestQueue.isEmpty then .busyOrEmpty
  else if 0 < s.rateLimitResetTime then
    if s.nowSec < s.rateLimitResetTime then
      .reschedule (min ((s.rateLimitResetTime - s.nowSec) * 1000) 60000)
    else .enter { s with rateLimitResetTime := 0, isProcessingQueue := true }
  else .enter { s with isProcessingQueue := true }

/-- Small-step semantics of the scheduling machinery, at the granularity of
its suspension points.  `tick` advances the clock.  `enterLoop` is one
invocation of `processRequestQueue` passing its gate (api.js lines 22-35).
`dispatch` is one iteration of the `while` loop (api.js lines 37-70): it may
fire only while the loop is running, under the concurrency guard
`activeRequests < MAX_CONCURRENT_REQUESTS`, and after the pacing wait (so at
a time at least `MIN_REQUEST_INTERVAL` past `lastRequestTime`); it shifts the
head request, increments `activeRequests` and stamps `lastRequestTime`.  The
loop body re-checks neither the rate-limit gate nor anything else.
`exitLoop` is the loop condition failing (api.js lines 37, 72).  `complete`
is a dispatched request settling (`.finally`, api.js lines 66-69).
`enqueue` is `getUserLocation` pushing a fresh record (api.js line 193), and
`rateLimitInfo` is the `__rateLimitInfo` message handler (api.js line 140)
running at a suspension point. -/
inductive Step : SchedState → SchedState → Prop
  | tick (s : SchedState) (d : Nat) :
      Step s { s with nowMs := s.nowMs + d }
  | enterLoop (s s' : SchedState) :
      processRequestQueueGate s = .enter s' → Step s s'
  | dispatch (s : SchedState) (name : String) (rest : List String) :
      s.isProcessingQueue = true →
      s.requestQueue = name :: rest →
      s.activeRequests < MAX_CONCURRENT_REQUESTS →
      s.lastRequestTime + MIN_REQUEST_INTERVAL ≤ s.nowMs →
      Step s { s with
               requestQueue := rest
               activeRequests := s.activeRequests + 1
               lastRequestTime := s.nowMs
               dispatched := s.dispatched ++ [name] }
  | exitLoop (s : SchedState) :
      s.isProcessingQueue = true →
      (s.requestQueue = [] ∨ MAX_CONCURRENT_REQUESTS ≤ s.activeRequests) →
      Step s { s with isProcessingQueue := false }
  | complete (s : SchedState) :
      0 < s.activeRequests →
      Step s { s with activeRequests := s.activeRequests - 1 }
  | enqueue (s : SchedState) (name : String) :
      Step s { s with requestQueue := s.requestQueue ++ [name] }
  | rateLimitInfo (s : SchedState) (resetTime : Nat) :
      Step s { s with rateLimitResetTime := resetTime }

/-- Module-load state of api.js (lines 1-8) with an initial request queue. -/
def initState (q0 : List String) : SchedState :=
  { requestQueue := q0, isProcessingQueue := false, lastRequestTime := 0,
    activeRequests := 0, rateLimitResetTime := 0, nowMs := 0, dispatched := [] }

/-- States reachable from module load with initial queue `q0`. -/
inductive Reachable (q0 : List String) : SchedState → Prop
  | init : Reachable q0 (initState q0)
  | step {s s' : SchedState} : Reachable q0 s → Step s s' → Reachable q0 s'

/-! ## Concrete inputs used by witnesses and counterexamples -/

/-- Key generator for the eviction scenario. -/
def ukey (i : Nat) : String := "u" ++ Nat.repr i

/-- A plain non-null cache entry. -/
def entryA : Option CacheEntry := some { location := some "x", locationAccurate := none }

/-- A location cache holding `MAX_CACHE_SIZE` entries `u0 .. u499` in
insertion order, as produced by 500 fresh inserts. -/
def c8full : LocCache := (List.range MAX_CACHE_SIZE).map (fun i => (ukey i, entryA))

/-- `c8full` after a re-put of the existing key `u1`. -/
def c8reput : LocCache := saveCacheEntry c8full (ukey 1) entryA

/-- `c8reput` after inserting the fresh key `u500`. -/
def c8ins1 : LocCache := saveCacheEntry c8reput (ukey 500) entryA

/-- `c8ins1` after inserting the fresh key `u501`, which triggers an
eviction. -/
def c8ins2 : LocCache := saveCacheEntry c8ins1 (ukey 501) entryA

/-- A concrete full profile. -/
def profile7 : FullProfile := { payload := 7 }

/-- The in-memory caches produced by a bridge response for `bob` carrying a
null location together with a full profile: a `null` location placeholder next
to a cached profile. -/
def c6caches : LocCache × FullCache :=
  applyBridgeResponse "bob" none none (some profile7) false [] []

/-- Scheduler trace, state 0: module load with keys `a`, `b` queued. -/
def ts0 : SchedState := initState ["a", "b"]

/-- State 1: the clock has advanced past the pacing interval. -/
def ts1 : SchedState := { ts0 with nowMs := 2000 }

/-- State 2: an invocation of `processRequestQueue` has passed the gate. -/
def ts2 : SchedState := { ts1 with isProcessingQueue := true }

/-- State 3: the loop has dispatched `a`. -/
def ts3 : SchedState :=
  { ts2 with requestQueue := ["b"], activeRequests := 1,
             lastRequestTime := 2000, dispatched := ["a"] }

/-- State 4: while the loop sits in its pacing wait, the `__rateLimitInfo`
handler has set a reset time far in the future (100 unix seconds, with the
clock at 2 seconds). -/
def ts4 : SchedState := { ts3 with rateLimitResetTime := 100 }

/-- State 5: the pacing wait has elapsed (clock at 4 seconds, still far
before the 100-second reset deadline). -/
def ts5 : SchedState := { ts4 with nowMs := 4000 }

/-- State 6: the still-running loop has dispatched `b` — a bridge dispatch
strictly before the rate-limit deadline. -/
def ts6 : SchedState :=
  { ts5 with requestQueue := [], activeRequests := 2,
             lastRequestTime := 4000, dispatched := ["a", "b"] }

/-! ## Helper lemmas about the map model -/

theorem mapGet_mapSet_self {α : Type} (m : List (String × α)) (k : String) (v : α) :
    mapGet (mapSet m k v) k = some v := by
  induction m with
  | nil => simp [mapSet, mapGet]
  | cons p rest ih =>
      obtain ⟨k', v'⟩ := p
      by_cases h : k' = k
      · simp [mapSet, h, mapGet]
      · simp [mapSet, h, mapGet, ih]

theorem mapGet_mapSet_ne {α : Type} (m : List (String × α)) {k' k : String} (v : α)
    (h : k' ≠ k) : mapGet (mapSet m k' v) k = mapGet m k := by
  induction m with
  | nil => simp [mapSet, mapGet, h]
  | cons p rest ih =>
      obtain ⟨k₀, v₀⟩ := p
      by_cases h₀ : k₀ = k'
      · subst h₀
        simp [mapSet, mapGet, h]
      · simp only [mapSet, if_neg h₀, mapGet]
        by_cases h₁ : k₀ = k
        · simp [h₁]
        · simp [h₁, ih]

theorem mapHas_eq_isSome {α : Type} (m : List (String × α)) (k : String) :
    mapHas m k = (mapGet m k).isSome := by
  induction m with
  | nil => simp [mapHas, mapGet]
  | cons p rest ih =>
      obtain ⟨k', v'⟩ := p
      by_cases h : k' = k
      · simp [mapHas, mapGet, h]
      · simp [mapHas, mapGet, h, ih]

theorem mapGet_eq_some_mem {α : Type} {m : List (String × α)} {k : String} {v : α}
    (h : mapGet m k = some v) : (k, v) ∈ m := by
  induction m with
  | nil => simp [mapGet] at h
  | cons p rest ih =>
      obtain ⟨k', v'⟩ := p
      by_cases hk : k' = k
      · subst hk
        simp [mapGet] at h
        simp [h]
      · simp [mapGet, hk] at h
        exact List.mem_cons_of_mem _ (ih h)

theorem mapGet_eq_none_iff {α : Type} (m : List (String × α)) (k : String) :
    mapGet m k = none ↔ k ∉ m.map Prod.fst := by
  induction m with
  | nil => simp [mapGet]
  | cons p rest ih =>
      obtain ⟨k', v'⟩ := p
      by_cases hk : k' = k
      · subst hk
        simp [mapGet]
      · simp [mapGet, hk, ih, Ne.symm hk]

/-! ## Claim theorems -/

/-- C9: the promise returned by `makeLocationRequest` never rejects — every
execution path settles it by `resolve` (null on timeout, a value object on a
matching response), so the hard-error rejection path is unreachable through
the fetch bridge itself. -/
theorem c9_bridge_never_rejects (sn : String) (rid : Nat) (events : List MsgEvent) :
    makeLocationRequest sn rid events ≠ .rejected := by
  unfold makeLocationRequest
  split <;> simp

/-- C5: if no matching response message arrives within the 10000 ms timeout
window, `makeLocationRequest` resolves its promise with `null` (after
deregistering its listener); it never rejects on timeout. -/
theorem c5_timeout_resolves_null (sn : String) (rid : Nat) (events : List MsgEvent)
    (h : ∀ e ∈ events, matchesHandler sn rid e = true → REQUEST_TIMEOUT ≤ e.time) :
    makeLocationRequest sn rid events = .resolvedNull := by
  unfold makeLocationRequest
  have hfind :
      events.find? (fun e => matchesHandler sn rid e && e.time < REQUEST_TIMEOUT) = none := by
    rw [List.find?_eq_none]
    intro e he
    simp only [Bool.and_eq_true, decide_eq_true_eq, not_and]
    intro hm
    have := h e he hm
    omega
  rw [hfind]

/-- Witness for C5 at a concrete input: a matching response that arrives
exactly at the timeout boundary is not delivered, and the promise resolves
with `null`. -/
theorem c5_timeout_witness :
    (∀ e ∈ [({ sourceIsWindow := true, msgType := "__locationResponse",
               screenName := "carol", requestId := 5, location := none,
               locationAccurate := none, fullResult := none,
               isRateLimited := false, time := 10000 } : MsgEvent)],
        matchesHandler "carol" 5 e = true → REQUEST_TIMEOUT ≤ e.time) ∧
    makeLocationRequest "carol" 5
      [{ sourceIsWindow := true, msgType := "__locationResponse",
         screenName := "carol", requestId := 5, location := none,
         locationAccurate := none, fullResult := none,
         isRateLimited := false, time := 10000 }] = .resolvedNull :=
  ⟨by decide, c5_timeout_resolves_null "carol" 5 _ (by decide)⟩

/-- C10: immediately after `saveFullProfile(k, p)` with a non-empty key, the
full-profile map holds `p` for `k` and the location map holds an entry for
`k`; when no location entry existed before, the entry is an explicit `null`
placeholder. -/
theorem c10_full_profile_invariant (locC : LocCache) (fullC : FullCache)
    (username : String) (p : FullProfile) (h : username ≠ "") :
    mapGet (saveFullProfile locC fullC username p).2 username = some p ∧
    (mapGet (saveFullProfile locC fullC username p).1 username).isSome = true ∧
    (mapHas locC username = false →
      mapGet (saveFullProfile locC fullC username p).1 username = some none) := by
  unfold saveFullProfile
  simp only [if_neg h]
  refine ⟨?_, ?_, ?_⟩
  · simp [mapGet_mapSet_self]
  · by_cases hh : mapHas locC username = true
    · simp only [hh, if_true]
      rw [mapHas_eq_isSome] at hh
      simp [hh]
    · have hh' : mapHas locC username = false := by simpa using hh
      simp [hh', mapGet_mapSet_self]
  · intro hh
    simp [hh, mapGet_mapSet_self]

/-- Witness for C10 at a concrete input: saving a profile for `dave` into
empty caches stores the profile and inserts the `null` location placeholder. -/
theorem c10_full_profile_witness :
    ("dave" : String) ≠ "" ∧
    mapGet (saveFullProfile [] [] "dave" profile7).2 "dave" = some profile7 ∧
    mapGet (saveFullProfile [] [] "dave" profile7).1 "dave" = some none :=
  ⟨by decide,
   (c10_full_profile_invariant [] [] "dave" profile7 (by decide)).1,
   (c10_full_profile_invariant [] [] "dave" profile7 (by decide)).2.2 (by decide)⟩

/-- C4: a cached explicit `null` entry is a retryable placeholder — without
`force`, `getUserLocation` treats it as a miss, deletes it, and (when no
request for the key is queued) enqueues a fresh bridge request; whereas a
non-null cached entry is returned immediately with no queueing at all. -/
theorem c4_null_is_retryable_placeholder (locC : LocCache) (queue : List QueueReq)
    (sn : String) (w : Nat) :
    (mapGet locC sn = some none → (∀ r ∈ queue, r.screenName ≠ sn) →
      getUserLocation locC queue sn false w =
        { locationCache := mapDelete locC sn
          queue := queue ++ [{ screenName := sn, resolveId := w,
                               extraResolves := [], extraRejects := [] }]
          outcome := .enqueued }) ∧
    (∀ v, mapGet locC sn = some (some v) →
      getUserLocation locC queue sn false w =
        { locationCache := locC, queue := queue, outcome := .hit v }) := by
  constructor
  · intro hnull hq
    have hany : queue.any (fun r => r.screenName == sn) = false := by
      simp only [List.any_eq_false]
      intro r hr
      simpa using hq r hr
    unfold getUserLocation
    simp [hnull, hany]
  · intro v hv
    unfold getUserLocation
    simp [hv]

/-- Witness for C4 at concrete inputs: a `null` entry for `bob` is purged and
a fresh request is enqueued; a non-null entry for `alice` is served as a hit
with nothing queued. -/
theorem c4_null_witness :
    getUserLocation [("bob", none)] [] "bob" false 7 =
      { locationCache := mapDelete [("bob", none)] "bob"
        queue := [{ screenName := "bob", resolveId := 7,
                    extraResolves := [], extraRejects := [] }]
        outcome := .enqueued } ∧
    getUserLocation [("alice", entryA)] [] "alice" false 8 =
      { locationCache := [("alice", entryA)], queue := []
        outcome := .hit { location := some "x", locationAccurate := none } } :=
  ⟨(c4_null_is_retryable_placeholder [("bob", none)] [] "bob" 7).1 (by decide) (by decide),
   (c4_null_is_retryable_placeholder [("alice", entryA)] [] "alice" 8).2
     { location := some "x", locationAccurate := none } (by decide)⟩

/-- C6 counterexample: the claim "if `hasCachedData(k)` is true and `force`
is not set, then `resolve(k)` settles without any bridge dispatch" is false.
A non-rate-limited bridge response for `bob` carrying a null location together
with a full profile leaves the caches with a `null` location placeholder next
to a cached profile; `hasCachedData "bob"` is then true through the
full-profile disjunct, yet `getUserLocation` treats the null entry as a miss
and enqueues a fresh bridge request. -/
theorem c6_peek_counterexample :
    c6caches = ([("bob", none)], [("bob", profile7)]) ∧
    hasCachedData c6caches.1 c6caches.2 "bob" = true ∧
    (getUserLocation c6caches.1 [] "bob" false 1).outcome = .enqueued := by
  decide

/-- C6 as amended: the cache-hit short-circuit is keyed on the location map,
not on `hasCachedData` — if the location cache holds a non-null entry for `k`
and `force` is not set, `resolve(k)` returns that entry immediately with no
queueing (and `hasCachedData` is indeed true then); but `hasCachedData`
alone does not suffice, since it is also true when only a full profile is
cached. -/
theorem c6_cache_hit_short_circuit (locC : LocCache) (fullC : FullCache)
    (queue : List QueueReq) (sn : String) (w : Nat) (v : CacheEntry)
    (h : mapGet locC sn = some (some v)) :
    hasCachedData locC fullC sn = true ∧
    getUserLocation locC queue sn false w =
      { locationCache := locC, queue := queue, outcome := .hit v } := by
  constructor
  · have hhas : mapHas locC sn = true := by
      rw [mapHas_eq_isSome, h]
      rfl
    simp [hasCachedData, hhas, h]
  · unfold getUserLocation
    simp [h]

/-- Witness for C6 (amended) at a concrete input: a non-null entry for
`alice` short-circuits with no queueing. -/
theorem c6_cache_hit_witness :
    mapGet [("alice", entryA)] "alice" = some entryA ∧
    hasCachedData [("alice", entryA)] [] "alice" = true ∧
    getUserLocation [("alice", entryA)] [] "alice" false 3 =
      { locationCache := [("alice", entryA)], queue := []
        outcome := .hit { location := some "x", locationAccurate := none } } :=
  ⟨by decide,
   (c6_cache_hit_short_circuit [("alice", entryA)] [] [] "alice" 3
     { location := some "x", locationAccurate := none } (by decide)).1,
   (c6_cache_hit_short_circuit [("alice", entryA)] [] [] "alice" 3
     { location := some "x", locationAccurate := none } (by decide)).2⟩

/-- C1: evaluation of the code at the failing input of the single-flight
claim. Two concurrent `resolve("alice")` calls with no cached entry produce a
single queue record (so only one bridge dispatch will occur): the second
caller is attached to the record's `_extraResolves` array. But the settlement
fan-out reads `this._extraResolves` with `this` being the global object
(`windowExtraResolves`, never assigned anywhere in the source), not the
dequeued record, so it resolves only the primary promise `1`: promise `2`
never settles, contradicting "all N returned promises settle with the
identical value or identical error". -/
theorem c1_extra_waiters_never_settle :
    (getUserLocation [] [] "alice" false 1).outcome = .enqueued ∧
    (getUserLocation [] [] "alice" false 1).queue =
      [{ screenName := "alice", resolveId := 1, extraResolves := [], extraRejects := [] }] ∧
    (getUserLocation [] (getUserLocation [] [] "alice" false 1).queue "alice" false 2).outcome
      = .joined ∧
    (getUserLocation [] (getUserLocation [] [] "alice" false 1).queue "alice" false 2).queue =
      [{ screenName := "alice", resolveId := 1, extraResolves := [2], extraRejects := [2] }] ∧
    settleDispatch
      { screenName := "alice", resolveId := 1, extraResolves := [2], extraRejects := [2] } =
      [1] ∧
    2 ∉ settleDispatch
      { screenName := "alice", resolveId := 1, extraResolves := [2], extraRejects := [2] } := by
  decide

set_option maxRecDepth 100000 in
/-- C8: evaluation of the code at the failing input of the re-put claim.
Start from a location cache holding `u0 .. u499` in insertion order, re-put
the existing key `u1` (JavaScript `Map.set` keeps its original insertion
position; the eviction guard, running at size 500, additionally evicts `u0`),
then insert the fresh keys `u500` and `u501`. At the `u501` insert the cache
is full and the first key in insertion order — `u1`, despite its recent
re-put — is evicted, while `u2` and `u499`, inserted before the re-put,
survive. This contradicts "a put on an existing key counts as a fresh
insertion for eviction-order purposes". -/
theorem c8_reput_evicted_first :
    (mapGet c8ins1 (ukey 1)).isSome = true ∧
    mapGet c8ins2 (ukey 1) = none ∧
    (mapGet c8ins2 (ukey 2)).isSome = true ∧
    (mapGet c8ins2 (ukey 499)).isSome = true := by
  decide

/-! ## Scheduler lemmas and trace -/

theorem gate_enter_eq {s s' : SchedState}
    (h : processRequestQueueGate s = .enter s') :
    s'.activeRequests = s.activeRequests ∧ s'.dispatched = s.dispatched := by
  unfold processRequestQueueGate at h
  split at h
  · exact absurd h (by simp)
  · split at h
    · split at h
      · exact absurd h (by simp)
      · injection h with h'
        subst h'
        exact ⟨rfl, rfl⟩
    · injection h with h'
      subst h'
      exact ⟨rfl, rfl⟩

theorem step_ts0_ts1 : Step ts0 ts1 := by
  have e : ts1 = { ts0 with nowMs := ts0.nowMs + 2000 } := by decide
  rw [e]
  exact Step.tick ts0 2000

theorem step_ts1_ts2 : Step ts1 ts2 :=
  Step.enterLoop ts1 ts2 (by decide)

theorem step_ts2_ts3 : Step ts2 ts3 := by
  have e : ts3 = { ts2 with requestQueue := ["b"], activeRequests := ts2.activeRequests + 1, lastRequestTime := ts2.nowMs, dispatched := ts2.dispatched ++ ["a"] } := by decide
  rw [e]
  exact Step.dispatch ts2 "a" ["b"] (by decide) (by decide) (by decide) (by decide)

theorem step_ts3_ts4 : Step ts3 ts4 := by
  have e : ts4 = { ts3 with rateLimitResetTime := 100 } := by decide
  rw [e]
  exact Step.rateLimitInfo ts3 100

theorem step_ts4_ts5 : Step ts4 ts5 := by
  have e : ts5 = { ts4 with nowMs := ts4.nowMs + 2000 } := by decide
  rw [e]
  exact Step.tick ts4 2000

theorem step_ts5_ts6 : Step ts5 ts6 := by
  have e : ts6 = { ts5 with requestQueue := [], activeRequests := ts5.activeRequests + 1, lastRequestTime := ts5.nowMs, dispatched := ts5.dispatched ++ ["b"] } := by decide
  rw [e]
  exact Step.dispatch ts5 "b" [] (by decide) (by decide) (by decide) (by decide)

theorem reachable_ts3 : Reachable ["a", "b"] ts3 :=
  ((Reachable.init.step step_ts0_ts1).step step_ts1_ts2).step step_ts2_ts3

theorem reachable_ts5 : Reachable ["a", "b"] ts5 :=
  (reachable_ts3.step step_ts3_ts4).step step_ts4_ts5

/-- C2: the concurrency bound holds — in every state reachable from module
load, however invocations of the scheduling loop, request completions,
enqueues and rate-limit events interleave, at most
`MAX_CONCURRENT_REQUESTS` bridge requests are in flight; the loop's dispatch
step is guarded by `activeRequests < MAX_CONCURRENT_REQUESTS` and can resume
only after a completion frees a slot. -/
theorem c2_concurrency_bound (q0 : List String) (s : SchedState)
    (h : Reachable q0 s) : s.activeRequests ≤ MAX_CONCURRENT_REQUESTS := by
  induction h with
  | init => simp [initState, MAX_CONCURRENT_REQUESTS]
  | step hr hs ih =>
      cases hs with
      | tick d => exact ih
      | enterLoop s' hg => rw [(gate_enter_eq hg).1]; exact ih
      | dispatch name rest h1 h2 h3 h4 => exact h3
      | exitLoop h1 h2 => exact ih
      | complete h1 => exact Nat.le_trans (Nat.sub_le _ _) ih
      | enqueue name => exact ih
      | rateLimitInfo r => exact ih

/-- Witness for C2 at a concrete input: the state reached after dispatching
one request out of a two-element queue is reachable and satisfies the bound. -/
theorem c2_concurrency_witness :
    Reachable ["a", "b"] ts3 ∧ ts3.activeRequests ≤ MAX_CONCURRENT_REQUESTS :=
  ⟨reachable_ts3, c2_concurrency_bound ["a", "b"] ts3 reachable_ts3⟩

/-- C3 counterexample: the claim "whenever `rateLimitResetTime` is set to a
future time, the scheduling loop dispatches no new bridge request before that
deadline" is false. The dispatch loop checks the rate-limit gate only at
invocation entry (api.js lines 24-33), never inside the `while` loop, so a
loop instance already running when the `__rateLimitInfo` handler fires keeps
dispatching: in the reachable state `ts5` the reset time (100 s) is far in
the future (clock at 4 s), yet a dispatch step for `b` fires. -/
theorem c3_rate_gate_counterexample :
    Reachable ["a", "b"] ts5 ∧ Step ts5 ts6 ∧
    0 < ts5.rateLimitResetTime ∧ ts5.nowSec < ts5.rateLimitResetTime ∧
    ts6.dispatched = ts5.dispatched ++ ["b"] :=
  ⟨reachable_ts5, step_ts5_ts6, by decide, by decide, by decide⟩

/-- C3 as amended: the rate-limit gate is per-invocation. An invocation of
`processRequestQueue` that begins (not already processing, non-empty queue)
while `rateLimitResetTime` is set and in the future enters no dispatch loop at
all: it only reschedules a re-check after exactly
`min(timeUntilReset, 60000)` ms — so it never sleeps past the 60 s ceiling
and never re-checks earlier than that bound allows — and an invocation
beginning once `now >= resetAt` clears the gate and enters the loop. A loop
instance already running when the reset time is set may, however, still
dispatch (see the counterexample). -/
theorem c3_rate_gate_per_invocation (s : SchedState)
    (hp : s.isProcessingQueue = false) (hq : s.requestQueue ≠ [])
    (hr : 0 < s.rateLimitResetTime) :
    (s.nowSec < s.rateLimitResetTime →
      processRequestQueueGate s =
        .reschedule (min ((s.rateLimitResetTime - s.nowSec) * 1000) 60000) ∧
      min ((s.rateLimitResetTime - s.nowSec) * 1000) 60000 ≤ 60000) ∧
    (s.rateLimitResetTime ≤ s.nowSec →
      processRequestQueueGate s =
        .enter { s with rateLimitResetTime := 0, isProcessingQueue := true }) := by
  have hq' : s.requestQueue.isEmpty = false := by
    simpa [List.isEmpty_iff] using hq
  constructor
  · intro hlt
    refine ⟨?_, Nat.min_le_right _ _⟩
    unfold processRequestQueueGate
    simp [hp, hq', hr, hlt]
  · intro hge
    unfold processRequestQueueGate
    have : ¬ s.nowSec < s.rateLimitResetTime := by omega
    simp [hp, hq', hr, this]

/-- Witness for C3 (amended) at concrete inputs: with the clock at 4 s and a
reset time of 100 s the gate only reschedules a re-check after
`min(96000, 60000) = 60000` ms; with the clock at 200 s the gate clears and
enters the loop. -/
theorem c3_rate_gate_witness :
    processRequestQueueGate
      { requestQueue := ["a"], isProcessingQueue := false, lastRequestTime := 0,
        activeRequests := 0, rateLimitResetTime := 100, nowMs := 4000,
        dispatched := [] } = .reschedule 60000 ∧
    processRequestQueueGate
      { requestQueue := ["a"], isProcessingQueue := false, lastRequestTime := 0,
        activeRequests := 0, rateLimitResetTime := 100, nowMs := 200000,
        dispatched := [] } =
      .enter { requestQueue := ["a"], isProcessingQueue := true,
               lastRequestTime := 0, activeRequests := 0,
               rateLimitResetTime := 0, nowMs := 200000, dispatched := [] } :=
  ⟨by
    have h := (c3_rate_gate_per_invocation
      { requestQueue := ["a"], isProcessingQueue := false, lastRequestTime := 0,
        activeRequests := 0, rateLimitResetTime := 100, nowMs := 4000,
        dispatched := [] } (by decide) (by decide) (by decide)).1 (by decide)
    simpa using h.1,
   by
    have h := (c3_rate_gate_per_invocation
      { requestQueue := ["a"], isProcessingQueue := false, lastRequestTime := 0,
        activeRequests := 0, rateLimitResetTime := 100, nowMs := 200000,
        dispatched := [] } (by decide) (by decide) (by decide)).2 (by decide)
    simpa using h⟩

/-! ## Persistence round-trip lemmas -/

theorem saveCache_get (tS : Nat) (locC : LocCache) (fullC : FullCache) (k : String) :
    mapGet (saveCache tS locC fullC) k = (mapGet locC k).map (savedRecord tS fullC k) := by
  induction locC with
  | nil => simp [saveCache, mapGet]
  | cons p rest ih =>
      obtain ⟨k', v⟩ := p
      by_cases h : k' = k
      · subst h
        simp [saveCache, mapGet]
      · simp only [saveCache, List.map_cons, mapGet, if_neg h] at ih ⊢
        exact ih

theorem saveCache_keys (tS : Nat) (locC : LocCache) (fullC : FullCache) :
    (saveCache tS locC fullC).map Prod.fst = locC.map Prod.fst := by
  induction locC with
  | nil => simp [saveCache]
  | cons p rest ih =>
      simp only [saveCache, List.map_cons] at ih ⊢
      rw [ih]

theorem loadCache_get_of_not_mem (now : Nat) (blob : StorageBlob) (k : String)
    (h : k ∉ blob.map Prod.fst) (locC : LocCache) (fullC : FullCache) :
    mapGet (loadCache now blob locC fullC).1 k = mapGet locC k ∧
    mapGet (loadCache now blob locC fullC).2 k = mapGet fullC k := by
  induction blob generalizing locC fullC with
  | nil => simp [loadCache]
  | cons p rest ih =>
      obtain ⟨u, d⟩ := p
      have hu : u ≠ k := by
        intro e
        exact h (by simp [e])
      have hr : k ∉ rest.map Prod.fst := by
        intro e
        exact h (by simp [e])
      simp only [loadCache]
      split
      · exact ih hr locC fullC
      · split
        · exact ih hr locC fullC
        · cases hf : d.fullProfile with
          | some p' =>
              simp only [hf]
              refine ⟨?_, ?_⟩
              · rw [(ih hr _ _).1, mapGet_mapSet_ne _ _ hu]
              · rw [(ih hr _ _).2, mapGet_mapSet_ne _ _ hu]
          | none =>
              simp only [hf]
              refine ⟨?_, ?_⟩
              · rw [(ih hr _ _).1, mapGet_mapSet_ne _ _ hu]
              · rw [(ih hr _ _).2]

theorem loadCache_get_of_mem (now : Nat) (blob : StorageBlob) (k : String)
    (d : StoredRecord) (hn : (blob.map Prod.fst).Nodup) (hmem : (k, d) ∈ blob)
    (locC : LocCache) (fullC : FullCache) :
    mapGet (loadCache now blob locC fullC).1 k =
      (if d.expiry = 0 ∨ d.expiry ≤ now then mapGet locC k
       else if d.location = .nullV ∧ d.fullProfile = none then mapGet locC k
       else some (rehydratedLoc d.location)) ∧
    mapGet (loadCache now blob locC fullC).2 k =
      (if d.expiry = 0 ∨ d.expiry ≤ now then mapGet fullC k
       else if d.location = .nullV ∧ d.fullProfile = none then mapGet fullC k
       else match d.fullProfile with
            | some p => some p
            | none => mapGet fullC k) := by
  induction blob generalizing locC fullC with
  | nil => simp at hmem
  | cons p rest ih =>
      obtain ⟨u, d'⟩ := p
      rcases List.mem_cons.mp hmem with he | hm
      · injection he with hk hd
        subst hk
        subst hd
        have hknr : k ∉ rest.map Prod.fst := by
          simp only [List.map_cons, List.nodup_cons] at hn
          exact hn.1
        by_cases h1 : d.expiry = 0 ∨ d.expiry ≤ now
        · simp only [loadCache, if_pos h1]
          exact loadCache_get_of_not_mem now rest k hknr locC fullC
        · by_cases h2 : d.location = .nullV ∧ d.fullProfile = none
          · simp only [loadCache, if_neg h1, if_pos h2]
            exact loadCache_get_of_not_mem now rest k hknr locC fullC
          · simp only [loadCache, if_neg h1, if_neg h2]
            cases hf : d.fullProfile with
            | some p' =>
                simp only [hf]
                refine ⟨?_, ?_⟩
                · rw [(loadCache_get_of_not_mem now rest k hknr _ _).1,
                      mapGet_mapSet_self]
                · rw [(loadCache_get_of_not_mem now rest k hknr _ _).2,
                      mapGet_mapSet_self]
            | none =>
                simp only [hf]
                refine ⟨?_, ?_⟩
                · rw [(loadCache_get_of_not_mem now rest k hknr _ _).1,
                      mapGet_mapSet_self]
                · rw [(loadCache_get_of_not_mem now rest k hknr _ _).2]
      · have hu : u ≠ k := by
          intro e
          subst e
          have hmk : u ∈ rest.map Prod.fst :=
            List.mem_map_of_mem Prod.fst hm
          simp only [List.map_cons, List.nodup_cons] at hn
          exact hn.1 hmk
        have hn' : (rest.map Prod.fst).Nodup := by
          simp only [List.map_cons, List.nodup_cons] at hn
          exact hn.2
        simp only [loadCache]
        split
        · exact ih hn' hm locC fullC
        · split
          · exact ih hn' hm locC fullC
          · cases hf : d'.fullProfile with
            | some p' =>
                simp only [hf]
                have h := ih hn' hm (mapSet locC u (rehydratedLoc d'.location))
                  (mapSet fullC u p')
                simp only [mapGet_mapSet_ne _ _ hu] at h
                exact h
            | none =>
                simp only [hf]
                have h := ih hn' hm (mapSet locC u (rehydratedLoc d'.location)) fullC
                simp only [mapGet_mapSet_ne _ _ hu] at h
                exact h

/-- C7 counterexample: the claim "save followed by load rehydrates exactly
those saved entries whose expiry is strictly greater than the load-time
clock" is false. A cache holding an explicit `null` entry for `alice` (and no
full profile) saves a record whose expiry (`CACHE_EXPIRY_MS`) is far beyond
the load-time clock `1`, yet `loadCache` silently omits it (the
`stored === null && !storedFull` skip at cache.js line 58), leaving both maps
empty. -/
theorem c7_round_trip_counterexample :
    saveCache 0 [("alice", none)] [] =
      [("alice", { location := .nullV, fullProfile := none, cachedAt := 0,
                   expiry := CACHE_EXPIRY_MS })] ∧
    1 < CACHE_EXPIRY_MS ∧
    loadCache 1 (saveCache 0 [("alice", none)] []) [] [] = ([], []) := by
  decide

/-- C7 as amended: `saveCache` at time `tSave` followed by `loadCache` at
time `tLoad` into empty in-memory maps rehydrates exactly those saved entries
whose expiry is strictly greater than `tLoad` AND which carry a non-null
location or a full profile — an unexpired entry whose saved location is
`null` and which has no full profile is silently omitted. Every saved entry's
expiry is freshly computed as `tSave + CACHE_EXPIRY_MS`, and a bare string
location is normalized on load to `{location: str, locationAccurate: null}`. -/
theorem c7_persistence_round_trip (locC : LocCache) (fullC : FullCache)
    (tSave tLoad : Nat) (k : String) (hn : (locC.map Prod.fst).Nodup) :
    (mapGet (loadCache tLoad (saveCache tSave locC fullC) [] []).1 k =
      if tSave + CACHE_EXPIRY_MS ≤ tLoad then none
      else match mapGet locC k with
        | some (some e) => some (some e)
        | some none => if (mapGet fullC k).isSome then some none else none
        | none => none) ∧
    (mapGet (loadCache tLoad (saveCache tSave locC fullC) [] []).2 k =
      if tSave + CACHE_EXPIRY_MS ≤ tLoad then none
      else if (mapGet locC k).isSome then mapGet fullC k else none) ∧
    (∀ r ∈ saveCache tSave locC fullC, r.2.expiry = tSave + CACHE_EXPIRY_MS) ∧
    (∀ u s r0, r0.location = StoredLocation.strV s →
      ¬ (r0.expiry = 0 ∨ r0.expiry ≤ tLoad) →
      mapGet (loadCache tLoad [(u, r0)] [] []).1 u =
        some (some { location := some s, locationAccurate := none })) := by
  have hkeys : ((saveCache tSave locC fullC).map Prod.fst).Nodup := by
    rw [saveCache_keys]
    exact hn
  refine ⟨?_, ?_, ?_, ?_⟩
  · cases hv : mapGet locC k with
    | none =>
        have hnm : k ∉ (saveCache tSave locC fullC).map Prod.fst := by
          rw [saveCache_keys]
          exact (mapGet_eq_none_iff locC k).mp hv
        rw [(loadCache_get_of_not_mem tLoad _ k hnm [] []).1]
        simp [mapGet]
    | some v =>
        have hbg : mapGet (saveCache tSave locC fullC) k
            = some (savedRecord tSave fullC k v) := by
          rw [saveCache_get, hv]
          rfl
        have hmem := mapGet_eq_some_mem hbg
        have h := (loadCache_get_of_mem tLoad _ k _ hkeys hmem [] []).1
        rw [h]
        simp only [savedRecord]
        by_cases hexp : tSave + CACHE_EXPIRY_MS ≤ tLoad
        · simp [hexp, mapGet]
        · have hc1 : ¬ (tSave + CACHE_EXPIRY_MS = 0 ∨ tSave + CACHE_EXPIRY_MS ≤ tLoad) := by
            have hpos : 0 < CACHE_EXPIRY_MS := by decide
            push_neg
            exact ⟨by omega, by omega⟩
          simp only [if_neg hc1, if_neg hexp]
          cases v with
          | none =>
              cases hfc : mapGet fullC k with
              | none => simp [hfc, mapGet]
              | some p => simp [hfc, rehydratedLoc]
          | some e => simp [rehydratedLoc]
  · cases hv : mapGet locC k with
    | none =>
        have hnm : k ∉ (saveCache tSave locC fullC).map Prod.fst := by
          rw [saveCache_keys]
          exact (mapGet_eq_none_iff locC k).mp hv
        rw [(loadCache_get_of_not_mem tLoad _ k hnm [] []).2]
        simp [mapGet]
    | some v =>
        have hbg : mapGet (saveCache tSave locC fullC) k
            = some (savedRecord tSave fullC k v) := by
          rw [saveCache_get, hv]
          rfl
        have hmem := mapGet_eq_some_mem hbg
        have h := (loadCache_get_of_mem tLoad _ k _ hkeys hmem [] []).2
        rw [h]
        simp only [savedRecord]
        by_cases hexp : tSave + CACHE_EXPIRY_MS ≤ tLoad
        · simp [hexp, mapGet]
        · have hc1 : ¬ (tSave + CACHE_EXPIRY_MS = 0 ∨ tSave + CACHE_EXPIRY_MS ≤ tLoad) := by
            have hpos : 0 < CACHE_EXPIRY_MS := by decide
            push_neg
            exact ⟨by omega, by omega⟩
          simp only [if_neg hc1, if_neg hexp]
          cases v with
          | none =>
              cases hfc : mapGet fullC k with
              | none => simp [hfc, mapGet]
              | some p => simp [hfc]
          | some e =>
              cases hfc : mapGet fullC k with
              | none => simp [hfc, mapGet]
              | some p => simp [hfc]
  · intro r hr
    simp only [saveCache, List.mem_map] at hr
    obtain ⟨p, hp, rfl⟩ := hr
    rfl
  · intro u s r0 hstr hexp
    have h2 : ¬ (r0.location = .nullV ∧ r0.fullProfile = none) := by
      rw [hstr]
      rintro ⟨hcontra, _⟩
      exact absurd hcontra (by simp)
    simp [loadCache, hexp, h2, hstr, rehydratedLoc, mapGet_mapSet_self]

/-- Witness for C7 (amended) at concrete inputs: a two-entry cache with a
profile for `bob` saved at time 0 and loaded at time 5 reproduces `alice`'s
non-null entry, reproduces `bob`'s profile, and keeps `bob`'s `null` location
placeholder (which has a profile next to it). -/
theorem c7_round_trip_witness :
    (([("alice", entryA), ("bob", (none : Option CacheEntry))].map Prod.fst).Nodup) ∧
    mapGet (loadCache 5 (saveCache 0 [("alice", entryA), ("bob", none)]
      [("bob", profile7)]) [] []).1 "alice" = some entryA ∧
    mapGet (loadCache 5 (saveCache 0 [("alice", entryA), ("bob", none)]
      [("bob", profile7)]) [] []).2 "bob" = some profile7 :=
  ⟨by decide,
   by
     have h := (c7_persistence_round_trip [("alice", entryA), ("bob", none)]
       [("bob", profile7)] 0 5 "alice" (by decide)).1
     rw [h]
     decide,
   by
     have h := (c7_persistence_round_trip [("alice", entryA), ("bob", none)]
       [("bob", profile7)] 0 5 "bob" (by decide)).2.1
     rw [h]
     decide⟩

end TwitterLocation
